import Mathlib

/-!
Shallow embedding of `sd_functions.c` (SD File Façade over FatFs).

The façade delegates to FatFs primitives (`f_open`, `f_write`, `f_lseek`,
`f_read`, `f_close`, `f_gets`, `strtok`, `strncpy`, `atoi`).  We model the
primitives' outcomes by an environment (`FatEnv`): each field is the result
the corresponding FatFs call would return during the façade operation, plus
an idealized volume (name → contents) so content-level properties such as
the write/read round trip can be stated.  The façade functions below mirror
the C control flow line by line and additionally record the sequence of
FatFs calls they perform (`FsAction` trace), so that hand-closing and
no-write-after-failed-seek properties are statable.
-/

namespace SdFunctions

/-- FatFs result code enumeration (`FRESULT` from ff.h). -/
inductive FRESULT where
  | FR_OK
  | FR_DISK_ERR
  | FR_INT_ERR
  | FR_NOT_READY
  | FR_NO_FILE
  | FR_NO_PATH
  | FR_INVALID_NAME
  | FR_DENIED
  | FR_EXIST
  | FR_INVALID_OBJECT
  | FR_WRITE_PROTECTED
  | FR_INVALID_DRIVE
  | FR_NOT_ENABLED
  | FR_NO_FILESYSTEM
  | FR_MKFS_ABORTED
  | FR_TIMEOUT
  | FR_LOCKED
  | FR_NOT_ENOUGH_CORE
  | FR_TOO_MANY_OPEN_FILES
  | FR_INVALID_PARAMETER
  deriving DecidableEq, Repr

open FRESULT

/-- The NUL byte, used as C string terminator. -/
def nulChar : Char := Char.ofNat 0

/-- Idealized volume contents: file name → byte contents (none = no file). -/
def FatVolume : Type := String → Option (List Char)

/-- The empty volume: no file exists. -/
def emptyVol : FatVolume := fun _ => none

/-- Replace (or create) a file's contents on the volume. -/
def updateVol (v : FatVolume) (name : String) (data : List Char) : FatVolume :=
  fun n => if n = name then some data else v n

/-- FatFs calls a façade operation may perform, for tracing. -/
inductive FsAction where
  | fopen
  | flseek
  | fwrite
  | fread
  | fclose
  deriving DecidableEq, Repr

/-- Outcome environment for one façade operation: the result each FatFs
primitive would report if called, plus the volume.  `writeCap` models the
number of bytes the device actually accepts in `f_write` (so a short write
is `writeCap < length`); FatFs stores the accepted count through `bw`. -/
structure FatEnv where
  vol : FatVolume
  openRes : FRESULT
  lseekRes : FRESULT
  writeRes : FRESULT
  writeCap : Nat
  readRes : FRESULT
  closeRes : FRESULT

/-- `sd_write_file(filename, text)` from sd_functions.c:
opens with `FA_CREATE_ALWAYS | FA_WRITE` (truncating the file), calls
`f_write(&file, text, strlen(text), &bw)`, closes (result discarded, as in
the C), and returns `(res == FR_OK && bw == strlen(text)) ? FR_OK :
FR_DISK_ERR`.  Returns (result code, volume after, trace of FatFs calls). -/
def sd_write_file (env : FatEnv) (filename : String) (text : List Char) :
    FRESULT × FatVolume × List FsAction :=
  if env.openRes ≠ FR_OK then
    (env.openRes, env.vol, [FsAction.fopen])
  else
    -- FA_CREATE_ALWAYS truncates to empty before writing at position 0
    let v1 := updateVol env.vol filename []
    let written := text.take env.writeCap
    let bw := written.length
    let v2 := if env.writeRes = FR_OK then updateVol v1 filename written else v1
    (if env.writeRes = FR_OK ∧ bw = text.length then FR_OK else FR_DISK_ERR,
     v2, [FsAction.fopen, FsAction.fwrite, FsAction.fclose])

/-- `sd_append_file(filename, text)` from sd_functions.c:
opens with `FA_OPEN_ALWAYS | FA_WRITE` (creating an empty file if absent),
seeks to `f_size(&file)`; on seek failure closes and returns the seek code;
otherwise writes, closes (result discarded), and returns
`(res == FR_OK && bw == strlen(text)) ? FR_OK : FR_DISK_ERR`. -/
def sd_append_file (env : FatEnv) (filename : String) (text : List Char) :
    FRESULT × FatVolume × List FsAction :=
  if env.openRes ≠ FR_OK then
    (env.openRes, env.vol, [FsAction.fopen])
  else
    let old := (env.vol filename).getD []
    let v1 := updateVol env.vol filename old
    if env.lseekRes ≠ FR_OK then
      (env.lseekRes, v1, [FsAction.fopen, FsAction.flseek, FsAction.fclose])
    else
      let written := text.take env.writeCap
      let bw := written.length
      let v2 := if env.writeRes = FR_OK then updateVol v1 filename (old ++ written) else v1
      (if env.writeRes = FR_OK ∧ bw = text.length then FR_OK else FR_DISK_ERR,
       v2, [FsAction.fopen, FsAction.flseek, FsAction.fwrite, FsAction.fclose])

/-- The read length `sd_read_file` requests from `f_read`: the C computes
`bufsize - 1` on `UINT` (32-bit unsigned), so subtraction wraps mod 2^32. -/
def sd_read_req_len (bufsize : Nat) : Nat :=
  (bufsize + 4294967295) % 4294967296

/-- Store `data` into `buf` starting at index `i` (C pointer-style byte
copy into a caller buffer; `List.set` leaves out-of-range indices alone). -/
def storeBytes (buf : List Char) (i : Nat) (data : List Char) : List Char :=
  match data with
  | [] => buf
  | c :: rest => storeBytes (buf.set i c) (i + 1) rest

/-- `sd_read_file(filename, buffer, bufsize, bytes_read)` from
sd_functions.c: sets `*bytes_read = 0`, opens for reading (propagating a
failing open code), calls `f_read(&file, buffer, bufsize - 1, bytes_read)`
(propagating a failing read code after closing), null-terminates with
`buffer[*bytes_read] = 0`, then closes, propagating a failing close code.
Returns (result code, buffer after, bytes read, trace). -/
def sd_read_file (env : FatEnv) (filename : String) (buffer : List Char) (bufsize : Nat) :
    FRESULT × List Char × Nat × List FsAction :=
  if env.openRes ≠ FR_OK then
    (env.openRes, buffer, 0, [FsAction.fopen])
  else
    let content := (env.vol filename).getD []
    if env.readRes ≠ FR_OK then
      (env.readRes, buffer, 0, [FsAction.fopen, FsAction.fread, FsAction.fclose])
    else
      let data := content.take (sd_read_req_len bufsize)
      let br := data.length
      let buf1 := storeBytes buffer 0 data
      let buf2 := buf1.set br nulChar
      if env.closeRes ≠ FR_OK then
        (env.closeRes, buf2, br, [FsAction.fopen, FsAction.fread, FsAction.fclose])
      else
        (FR_OK, buf2, br, [FsAction.fopen, FsAction.fread, FsAction.fclose])

/-- One CSV record: `struct CsvRecord { char field1[32]; char field2[32];
int value; }`.  The two 32-byte arrays are byte lists of length 32. -/
structure CsvRecord where
  field1 : List Char
  field2 : List Char
  value : Int
  deriving DecidableEq, Repr

/-- `strncpy(dst, src, 32)` into a 32-byte field: copies at most 32 bytes
of the source, padding with NUL bytes up to 32 only when the source is
shorter; a source of 32 bytes or more leaves no NUL terminator. -/
def strncpy32 (src : List Char) : List Char :=
  src.take 32 ++ List.replicate (32 - src.length) nulChar

/-- The successive tokens `strtok(line, ",")` / `strtok(NULL, ",")`
produce: the nonempty maximal comma-free segments of the line (strtok
skips leading and collapses consecutive delimiters). -/
def strtok_all (line : List Char) : List (List Char) :=
  (line.splitOn ',').filter (fun t => t ≠ [])

/-- `atoi`: skip leading whitespace, optional sign, then the numeric
prefix; non-numeric input yields 0. -/
def isSpaceChar (c : Char) : Bool :=
  c == ' ' || c == '\t' || c == '\n' || c == '\x0b' || c == '\x0c' || c == '\r'

/-- Value of the decimal-digit prefix of a byte list. -/
def digitsVal (s : List Char) : Nat :=
  (s.takeWhile Char.isDigit).foldl (fun a c => a * 10 + (c.toNat - 48)) 0

/-- C `atoi` on a byte list. -/
def atoi (s : List Char) : Int :=
  match s.dropWhile isSpaceChar with
  | '-' :: r => -(digitsVal r : Int)
  | '+' :: r => (digitsVal r : Int)
  | s1 => (digitsVal s1 : Int)

/-- State of the `sd_read_csv` loop: the caller's record array (indexed by
slot), `*record_count`, and the list of array slots written to so far. -/
structure CsvState where
  records : Nat → CsvRecord
  count : Nat
  writes : List Nat

/-- Assign `records[i].field1 = strncpy32 t`. -/
def setField1 (recs : Nat → CsvRecord) (i : Nat) (t : List Char) : Nat → CsvRecord :=
  fun j => if j = i then { recs i with field1 := strncpy32 t } else recs j

/-- Assign `records[i].field2 = strncpy32 t`. -/
def setField2 (recs : Nat → CsvRecord) (i : Nat) (t : List Char) : Nat → CsvRecord :=
  fun j => if j = i then { recs i with field2 := strncpy32 t } else recs j

/-- Assign `records[i].value = n`. -/
def setValue (recs : Nat → CsvRecord) (i : Nat) (n : Int) : Nat → CsvRecord :=
  fun j => if j = i then { recs i with value := n } else recs j

/-- One iteration of the `sd_read_csv` loop body on one line:
`strtok` the line; no token → continue (nothing written, not counted);
one token → `strncpy` into `field1` of slot `*record_count`, then the
second `strtok` is NULL so `continue` — the slot is written but
`(*record_count)++` is NOT reached; two tokens → `field1`, `field2`
copied, third `strtok` NULL so the else branch sets `value = 0`, counted;
three or more → `field1`, `field2` copied, `value = atoi(token3)`,
counted. -/
def csv_step (st : CsvState) (line : List Char) : CsvState :=
  match strtok_all line with
  | [] => st
  | [t1] =>
      { st with records := setField1 st.records st.count t1,
                writes := st.writes ++ [st.count] }
  | [t1, t2] =>
      let r1 := setField1 st.records st.count t1
      let r2 := setField2 r1 st.count t2
      let r3 := setValue r2 st.count 0
      { records := r3, count := st.count + 1, writes := st.writes ++ [st.count] }
  | t1 :: t2 :: t3 :: _ =>
      let r1 := setField1 st.records st.count t1
      let r2 := setField2 r1 st.count t2
      let r3 := setValue r2 st.count (atoi t3)
      { records := r3, count := st.count + 1, writes := st.writes ++ [st.count] }

/-- The `while (f_gets(...) && *record_count < max_records)` loop: `lines`
is the sequence of lines `f_gets` yields (each at most 127 bytes, newline
kept).  The guard is re-checked before each body run. -/
def sd_read_csv_loop (max_records : Nat) : List (List Char) → CsvState → CsvState
  | [], st => st
  | line :: rest, st =>
      if st.count < max_records then
        sd_read_csv_loop max_records rest (csv_step st line)
      else st

/-- `sd_read_csv(filename, records, max_records, record_count)` from
sd_functions.c, on the sequence of lines `f_gets` yields for the file:
`*record_count = 0`, then the tokenizing loop.  Returns (records array
after, `*record_count`, slots written). -/
def sd_read_csv (lines : List (List Char)) (records : Nat → CsvRecord)
    (max_records : Nat) : (Nat → CsvRecord) × Nat × List Nat :=
  let st := sd_read_csv_loop max_records lines { records := records, count := 0, writes := [] }
  (st.records, st.count, st.writes)

/-- Number of lines that produce at least two strtok tokens (the lines
`sd_read_csv` actually counts, per the control flow above). -/
def countedLines (lines : List (List Char)) : Nat :=
  (lines.filter (fun l => decide (2 ≤ (strtok_all l).length))).length

/-! ## Helper lemmas -/

theorem req_len_sub_one (bufsize : Nat) (h1 : 1 ≤ bufsize) (h2 : bufsize < 4294967296) :
    sd_read_req_len bufsize = bufsize - 1 := by
  have h : bufsize + 4294967295 = (bufsize - 1) + 4294967296 := by omega
  rw [sd_read_req_len, h, Nat.add_mod_right, Nat.mod_eq_of_lt (by omega)]

theorem take_succ_set (buf : List Char) (i : Nat) (c : Char) (h : i < buf.length) :
    (buf.set i c).take (i + 1) = buf.take i ++ [c] := by
  induction buf generalizing i with
  | nil => simp at h
  | cons a l ih =>
      cases i with
      | zero => simp
      | succ n =>
          simp only [List.set, List.take, List.cons_append, List.cons.injEq, true_and]
          exact ih n (by simpa using h)

theorem storeBytes_length (buf : List Char) (i : Nat) (data : List Char) :
    (storeBytes buf i data).length = buf.length := by
  induction data generalizing buf i with
  | nil => rfl
  | cons c rest ih => simp [storeBytes, ih, List.length_set]

theorem storeBytes_eq (data : List Char) : ∀ (buf : List Char) (i : Nat),
    i + data.length ≤ buf.length →
    storeBytes buf i data = buf.take i ++ data ++ buf.drop (i + data.length) := by
  induction data with
  | nil => intro buf i h; simp [storeBytes]
  | cons c rest ih =>
      intro buf i h
      have hlb : i < buf.length := by simp at h; omega
      rw [storeBytes, ih (buf.set i c) (i + 1) (by simp [List.length_set]; simp at h; omega)]
      rw [take_succ_set _ _ _ hlb, List.drop_set_of_lt c buf (by omega)]
      have hidx : i + 1 + rest.length = i + (c :: rest).length := by simp; omega
      rw [hidx]
      simp

theorem set_append_length (l r : List Char) (c : Char) :
    (l ++ r).set l.length c = l ++ r.set 0 c := by
  induction l with
  | nil => simp
  | cons a t ih => simp [List.set, ih]

theorem takeWhile_append_nul (l r : List Char) (h : nulChar ∉ l) :
    (l ++ nulChar :: r).takeWhile (fun c => c != nulChar) = l := by
  induction l with
  | nil => simp [List.takeWhile]
  | cons a t ih =>
      have ha : (a != nulChar) = true := by
        simp only [bne_iff_ne, ne_eq, decide_eq_true_eq]
        intro he; exact h (he ▸ List.mem_cons_self a t)
      simp only [List.cons_append, List.takeWhile, ha, List.cons.injEq, true_and]
      exact ih (fun hm => h (List.mem_cons_of_mem _ hm))

theorem getElem?_append_cons (l r : List Char) (a : Char) :
    (l ++ a :: r)[l.length]? = some a := by
  rw [List.getElem?_append_right (Nat.le_refl _)]
  simp

/-- Happy-path unfolding of `sd_read_file`: all steps succeed, file exists. -/
theorem sd_read_file_ok (env : FatEnv) (fn : String) (content buffer : List Char) (C : Nat)
    (hopen : env.openRes = FR_OK) (hrres : env.readRes = FR_OK) (hcres : env.closeRes = FR_OK)
    (hvol : env.vol fn = some content) :
    sd_read_file env fn buffer C =
      (FR_OK,
       (storeBytes buffer 0 (content.take (sd_read_req_len C))).set
         (content.take (sd_read_req_len C)).length nulChar,
       (content.take (sd_read_req_len C)).length,
       [FsAction.fopen, FsAction.fread, FsAction.fclose]) := by
  simp [sd_read_file, hopen, hrres, hcres, hvol]

/-- The read buffer after the happy path is the data, then NUL, then the
untouched tail of the caller's buffer. -/
theorem read_buffer_repr (buffer data : List Char) (h : data.length < buffer.length) :
    ∃ rest : List Char,
      (storeBytes buffer 0 data).set data.length nulChar = data ++ nulChar :: rest ∧
      (data ++ nulChar :: rest).length = buffer.length := by
  have hst : storeBytes buffer 0 data = data ++ buffer.drop data.length := by
    have := storeBytes_eq data buffer 0 (by omega)
    simpa using this
  have hdne : buffer.drop data.length ≠ [] := by
    intro hnil
    have := List.length_drop data.length buffer
    rw [hnil] at this
    simp at this
    omega
  obtain ⟨d, rest, hdr⟩ := List.exists_cons_of_ne_nil hdne
  refine ⟨rest, ?_, ?_⟩
  · rw [hst, hdr, set_append_length]
    simp [List.set]
  · have hlen : (buffer.drop data.length).length = buffer.length - data.length :=
      List.length_drop _ _
    rw [hdr] at hlen
    simp at hlen ⊢
    omega

/-! ## Claim theorems -/

/-- Claim C1 (amended): each façade operation propagates the failing open,
seek, read and close steps' codes unmodified; but in `sd_write_file` and
`sd_append_file` the `f_write` step's own failure code is never propagated:
after a successful open (and seek), the return value is `FR_OK` exactly when
`f_write` reported `FR_OK` and wrote all requested bytes, and `FR_DISK_ERR`
otherwise — any `f_write` failure code is replaced by the generic
`FR_DISK_ERR`, and the `f_close` result there is ignored. -/
theorem error_code_propagation (env : FatEnv) (fn : String) (t buffer : List Char) (C : Nat) :
    (env.openRes ≠ FR_OK → (sd_write_file env fn t).1 = env.openRes) ∧
    (env.openRes ≠ FR_OK → (sd_append_file env fn t).1 = env.openRes) ∧
    (env.openRes = FR_OK → env.lseekRes ≠ FR_OK →
      (sd_append_file env fn t).1 = env.lseekRes) ∧
    (env.openRes = FR_OK →
      (sd_write_file env fn t).1 =
        if env.writeRes = FR_OK ∧ (t.take env.writeCap).length = t.length
        then FR_OK else FR_DISK_ERR) ∧
    (env.openRes = FR_OK → env.lseekRes = FR_OK →
      (sd_append_file env fn t).1 =
        if env.writeRes = FR_OK ∧ (t.take env.writeCap).length = t.length
        then FR_OK else FR_DISK_ERR) ∧
    (env.openRes ≠ FR_OK → (sd_read_file env fn buffer C).1 = env.openRes) ∧
    (env.openRes = FR_OK → env.readRes ≠ FR_OK →
      (sd_read_file env fn buffer C).1 = env.readRes) ∧
    (env.openRes = FR_OK → env.readRes = FR_OK → env.closeRes ≠ FR_OK →
      (sd_read_file env fn buffer C).1 = env.closeRes) := by
  refine ⟨?_, ?_, ?_, ?_, ?_, ?_, ?_, ?_⟩ <;> intros <;>
    simp_all [sd_write_file, sd_append_file, sd_read_file]

/-- Claim C1, witness: with `f_open` failing with `FR_NO_FILE`,
`sd_write_file` returns `FR_NO_FILE`. -/
theorem error_code_propagation_witness :
    (⟨emptyVol, FR_NO_FILE, FR_OK, FR_OK, 0, FR_OK, FR_OK⟩ : FatEnv).openRes ≠ FR_OK ∧
    (sd_write_file ⟨emptyVol, FR_NO_FILE, FR_OK, FR_OK, 0, FR_OK, FR_OK⟩ "f.txt" ['a']).1 =
      FR_NO_FILE :=
  ⟨by decide,
   (error_code_propagation ⟨emptyVol, FR_NO_FILE, FR_OK, FR_OK, 0, FR_OK, FR_OK⟩
      "f.txt" ['a'] [] 4).1 (by decide)⟩

/-- Claim C1, counterexample: `f_open` succeeds and `f_write` itself fails
with `FR_TIMEOUT` inside `sd_write_file`, yet the function returns
`FR_DISK_ERR` — a substituted code, not `f_write`'s own code — refuting the
claim that the first failing step's code is returned unmodified. -/
theorem error_code_propagation_cex :
    (sd_write_file ⟨emptyVol, FR_OK, FR_OK, FR_TIMEOUT, 100, FR_OK, FR_OK⟩ "f.txt" ['a']).1 =
      FR_DISK_ERR ∧ FR_DISK_ERR ≠ FR_TIMEOUT := by
  exact ⟨by decide, by decide⟩

/-- Claim C2: after a successful open, if the `f_write` call reports
`FR_OK` but fewer bytes were written than requested, `sd_write_file`
returns the generic `FR_DISK_ERR`, not success; it returns `FR_OK` exactly
when `f_write` succeeded and the bytes written equal the requested length.
The same holds for `sd_append_file` (after a successful seek). -/
theorem short_write_fails (env : FatEnv) (fn : String) (text : List Char)
    (hopen : env.openRes = FR_OK) :
    (env.writeRes = FR_OK → (text.take env.writeCap).length < text.length →
      (sd_write_file env fn text).1 = FR_DISK_ERR ∧ (sd_write_file env fn text).1 ≠ FR_OK) ∧
    ((sd_write_file env fn text).1 = FR_OK ↔
      env.writeRes = FR_OK ∧ (text.take env.writeCap).length = text.length) ∧
    (env.lseekRes = FR_OK →
      (env.writeRes = FR_OK → (text.take env.writeCap).length < text.length →
        (sd_append_file env fn text).1 = FR_DISK_ERR ∧
        (sd_append_file env fn text).1 ≠ FR_OK) ∧
      ((sd_append_file env fn text).1 = FR_OK ↔
        env.writeRes = FR_OK ∧ (text.take env.writeCap).length = text.length)) := by
  have hw : (sd_write_file env fn text).1 =
      if env.writeRes = FR_OK ∧ (text.take env.writeCap).length = text.length
      then FR_OK else FR_DISK_ERR := by
    simp [sd_write_file, hopen]
  refine ⟨?_, ?_, ?_⟩
  · intro hres hlt
    rw [hw, if_neg (by intro hc; omega)]
    exact ⟨rfl, by decide⟩
  · rw [hw]
    by_cases hc : env.writeRes = FR_OK ∧ (text.take env.writeCap).length = text.length <;>
      simp [hc]
  · intro hseek
    have ha : (sd_append_file env fn text).1 =
        if env.writeRes = FR_OK ∧ (text.take env.writeCap).length = text.length
        then FR_OK else FR_DISK_ERR := by
      simp [sd_append_file, hopen, hseek]
    refine ⟨?_, ?_⟩
    · intro hres hlt
      rw [ha, if_neg (by intro hc; omega)]
      exact ⟨rfl, by decide⟩
    · rw [ha]
      by_cases hc : env.writeRes = FR_OK ∧ (text.take env.writeCap).length = text.length <;>
        simp [hc]

/-- Claim C2, witness: open succeeds, `f_write` reports `FR_OK` but only 1
of 2 bytes is written; `sd_write_file` returns `FR_DISK_ERR`. -/
theorem short_write_fails_witness :
    (⟨emptyVol, FR_OK, FR_OK, FR_OK, 1, FR_OK, FR_OK⟩ : FatEnv).openRes = FR_OK ∧
    (sd_write_file ⟨emptyVol, FR_OK, FR_OK, FR_OK, 1, FR_OK, FR_OK⟩ "f.txt" ['a', 'b']).1 =
      FR_DISK_ERR :=
  ⟨rfl,
   ((short_write_fails ⟨emptyVol, FR_OK, FR_OK, FR_OK, 1, FR_OK, FR_OK⟩ "f.txt" ['a', 'b']
      rfl).1 rfl (by decide)).1⟩

/-- Claim C7: in `sd_append_file`, if the seek-to-end step fails after a
successful open, the seek step's own code is returned, `f_close` is called
before returning, and no `f_write` call is made. -/
theorem append_seek_fail (env : FatEnv) (fn : String) (text : List Char)
    (hopen : env.openRes = FR_OK) (hseek : env.lseekRes ≠ FR_OK) :
    (sd_append_file env fn text).1 = env.lseekRes ∧
    FsAction.fclose ∈ (sd_append_file env fn text).2.2 ∧
    FsAction.fwrite ∉ (sd_append_file env fn text).2.2 := by
  simp [sd_append_file, hopen, hseek]

/-- Claim C7, witness: open succeeds, seek fails with `FR_INT_ERR`; the
append returns `FR_INT_ERR`, closes the handle, and never writes. -/
theorem append_seek_fail_witness :
    ((⟨emptyVol, FR_OK, FR_INT_ERR, FR_OK, 9, FR_OK, FR_OK⟩ : FatEnv).openRes = FR_OK ∧
     (⟨emptyVol, FR_OK, FR_INT_ERR, FR_OK, 9, FR_OK, FR_OK⟩ : FatEnv).lseekRes ≠ FR_OK) ∧
    ((sd_append_file ⟨emptyVol, FR_OK, FR_INT_ERR, FR_OK, 9, FR_OK, FR_OK⟩ "f.txt" ['a']).1 =
       FR_INT_ERR ∧
     FsAction.fclose ∈
       (sd_append_file ⟨emptyVol, FR_OK, FR_INT_ERR, FR_OK, 9, FR_OK, FR_OK⟩ "f.txt" ['a']).2.2 ∧
     FsAction.fwrite ∉
       (sd_append_file ⟨emptyVol, FR_OK, FR_INT_ERR, FR_OK, 9, FR_OK, FR_OK⟩ "f.txt" ['a']).2.2) :=
  ⟨⟨rfl, by decide⟩,
   append_seek_fail ⟨emptyVol, FR_OK, FR_INT_ERR, FR_OK, 9, FR_OK, FR_OK⟩ "f.txt" ['a']
     rfl (by decide)⟩

/-- Claim C9: the length `sd_read_file` passes to `f_read` is computed as
`bufsize - 1` on 32-bit unsigned arithmetic, so the "at most
`bufsize - 1` bytes" bound holds only for `bufsize ≥ 1`: at `bufsize = 0`
the requested length wraps to `4294967295`, and the model then reads an
entire 2-byte file into a zero-capacity buffer instead of reading zero
bytes or failing. -/
theorem read_req_len_wraps :
    sd_read_req_len 0 = 4294967295 ∧
    (∀ bufsize : Nat, 1 ≤ bufsize → bufsize < 4294967296 →
      sd_read_req_len bufsize = bufsize - 1) ∧
    (sd_read_file ⟨updateVol emptyVol "f.txt" ['a', 'b'], FR_OK, FR_OK, FR_OK, 0, FR_OK, FR_OK⟩
        "f.txt" [] 0).2.2.1 = 2 := by
  refine ⟨by decide, ?_, by decide⟩
  intro bufsize h1 h2
  exact req_len_sub_one bufsize h1 h2

/-- Claim C9, witness: at `bufsize = 5` the requested read length is 4. -/
theorem read_req_len_wraps_witness :
    ((1 : Nat) ≤ 5 ∧ (5 : Nat) < 4294967296) ∧ sd_read_req_len 5 = 5 - 1 :=
  ⟨⟨by decide, by decide⟩, read_req_len_wraps.2.1 5 (by decide) (by decide)⟩

/-! ## CSV loop lemmas -/

theorem csv_step_count (st : CsvState) (line : List Char) :
    (csv_step st line).count =
      if 2 ≤ (strtok_all line).length then st.count + 1 else st.count := by
  rcases h : strtok_all line with _ | ⟨t1, _ | ⟨t2, ts⟩⟩
  · simp [csv_step, h]
  · simp [csv_step, h]
  · cases ts <;> simp [csv_step, h]

theorem csv_step_writes (st : CsvState) (line : List Char) :
    (csv_step st line).writes = st.writes ∨
    (csv_step st line).writes = st.writes ++ [st.count] := by
  rcases h : strtok_all line with _ | ⟨t1, _ | ⟨t2, ts⟩⟩
  · left; simp [csv_step, h]
  · right; simp [csv_step, h]
  · cases ts <;> right <;> simp [csv_step, h]

theorem countedLines_cons (l : List Char) (rest : List (List Char)) :
    countedLines (l :: rest) =
      (if 2 ≤ (strtok_all l).length then 1 else 0) + countedLines rest := by
  by_cases h2 : 2 ≤ (strtok_all l).length <;>
    simp [countedLines, List.filter_cons, h2, Nat.add_comm]

theorem csv_loop_count (max : Nat) (lines : List (List Char)) (st : CsvState)
    (h : st.count + lines.length ≤ max) :
    (sd_read_csv_loop max lines st).count = st.count + countedLines lines := by
  induction lines generalizing st with
  | nil => simp [sd_read_csv_loop, countedLines]
  | cons l rest ih =>
      have hlen : st.count + (rest.length + 1) ≤ max := by simpa using h
      have hlt : st.count < max := by omega
      rw [sd_read_csv_loop, if_pos hlt]
      rw [ih (csv_step st l) (by rw [csv_step_count]; split <;> omega)]
      rw [csv_step_count, countedLines_cons]
      split <;> omega

theorem csv_loop_bounds (max : Nat) (lines : List (List Char)) (st : CsvState)
    (hc : st.count ≤ max)
    (hw : st.writes.all (fun i => decide (i < max)) = true) :
    (sd_read_csv_loop max lines st).count ≤ max ∧
    ((sd_read_csv_loop max lines st).writes).all (fun i => decide (i < max)) = true := by
  induction lines generalizing st with
  | nil => exact ⟨hc, hw⟩
  | cons l rest ih =>
      by_cases hlt : st.count < max
      · rw [sd_read_csv_loop, if_pos hlt]
        refine ih (csv_step st l) (by rw [csv_step_count]; split <;> omega) ?_
        rcases csv_step_writes st l with h | h <;> rw [h]
        · exact hw
        · rw [List.all_append, hw]
          simpa using hlt
      · rw [sd_read_csv_loop, if_neg hlt]
        exact ⟨hc, hw⟩

/-! ## CSV claim theorems -/

/-- Claim C3, counterexample: the line `"a\n"` produces one strtok token,
so per the claim it should be counted; but `sd_read_csv` on that single
line returns `record_count = 0` — the second `strtok` is NULL and the
`continue` skips `(*record_count)++`. -/
theorem csv_record_count_cex :
    (sd_read_csv [['a', '\n']]
        (fun _ => ⟨List.replicate 32 nulChar, List.replicate 32 nulChar, 0⟩) 10).2.1 = 0 ∧
    strtok_all ['a', '\n'] ≠ [] := by
  exact ⟨by decide, by decide⟩

/-- Claim C3 (amended): with sufficient `max_records`, the returned
`record_count` equals the number of input lines that produced at least TWO
comma-separated tokens.  A line with exactly one token has that token
copied into `field1` of the next unfilled slot but is NOT counted (the
`continue` after the failed second `strtok` skips the increment). -/
theorem sd_read_csv_count (lines : List (List Char)) (records : Nat → CsvRecord)
    (max_records : Nat) (h : lines.length ≤ max_records) :
    (sd_read_csv lines records max_records).2.1 = countedLines lines := by
  have hloop := csv_loop_count max_records lines
      { records := records, count := 0, writes := [] } (by simpa using h)
  simpa [sd_read_csv] using hloop

/-- Claim C3, witness: on lines `"a,b,3\n"` and `"a\n"` with
`max_records = 5`, the count equals `countedLines` (which is 1). -/
theorem sd_read_csv_count_witness :
    ([['a', ',', 'b', ',', '3', '\n'], ['a', '\n']] : List (List Char)).length ≤ 5 ∧
    (sd_read_csv [['a', ',', 'b', ',', '3', '\n'], ['a', '\n']]
        (fun _ => ⟨[], [], 0⟩) 5).2.1 =
      countedLines [['a', ',', 'b', ',', '3', '\n'], ['a', '\n']] :=
  ⟨by decide,
   sd_read_csv_count [['a', ',', 'b', ',', '3', '\n'], ['a', '\n']]
     (fun _ => ⟨[], [], 0⟩) 5 (by decide)⟩

/-- Claim C4, counterexample: on the two-token line `"a,b\n"`, with the
caller's record slot previously holding `value = 7`, `sd_read_csv` leaves
`value = 0` — the else branch `records[*record_count].value = 0;` assigns
it, so the field is NOT left at the caller's previous value. -/
theorem csv_value_cex :
    ((sd_read_csv [['a', ',', 'b', '\n']] (fun _ => ⟨[], [], 7⟩) 5).1 0).value = 0 ∧
    ((7 : Int) ≠ 0) := by
  exact ⟨by decide, by decide⟩

/-- Claim C4 (amended): for every counted record the parser always assigns
`value`: when the line has exactly two tokens, `value` is set to 0 (by the
else branch), not left at the caller's previous contents; when a third
token exists, `value` is set to `atoi` of it. -/
theorem csv_value_assigned (st : CsvState) (line : List Char) :
    (∀ t1 t2 : List Char, strtok_all line = [t1, t2] →
      ((csv_step st line).records st.count).value = 0) ∧
    (∀ (t1 t2 t3 : List Char) (r : List (List Char)),
      strtok_all line = t1 :: t2 :: t3 :: r →
      ((csv_step st line).records st.count).value = atoi t3) := by
  constructor
  · intro t1 t2 h
    simp [csv_step, h, setValue, setField1, setField2]
  · intro t1 t2 t3 r h
    simp [csv_step, h, setValue, setField1, setField2]

/-- Claim C4, witness: the two-token line `"a,b\n"` gets `value = 0`. -/
theorem csv_value_assigned_witness :
    strtok_all ['a', ',', 'b', '\n'] = [['a'], ['b', '\n']] ∧
    ((csv_step ⟨fun _ => ⟨[], [], 7⟩, 0, []⟩ ['a', ',', 'b', '\n']).records 0).value = 0 :=
  ⟨by decide,
   (csv_value_assigned ⟨fun _ => ⟨[], [], 7⟩, 0, []⟩ ['a', ',', 'b', '\n']).1
     ['a'] ['b', '\n'] (by decide)⟩

/-- Claim C8: for every input and every `max_records`, `sd_read_csv`
returns `record_count ≤ max_records` and never writes to a record slot at
an index `≥ max_records`. -/
theorem sd_read_csv_bounds (lines : List (List Char)) (records : Nat → CsvRecord)
    (max_records : Nat) :
    (sd_read_csv lines records max_records).2.1 ≤ max_records ∧
    ((sd_read_csv lines records max_records).2.2).all
      (fun i => decide (i < max_records)) = true := by
  have hloop := csv_loop_bounds max_records lines
      { records := records, count := 0, writes := [] } (Nat.zero_le _) (by simp)
  simpa [sd_read_csv] using hloop

/-- Claim C10: a token copied into `field1`/`field2` by `strncpy(dst, tok,
32)` always yields exactly 32 bytes (never writes past the field), and a
NUL-free token of 32 bytes or more leaves the field with no NUL terminator;
`csv_step` only ever stores `strncpy32` images (or leaves a field as it
was). -/
theorem strncpy32_bounded :
    (∀ t : List Char, (strncpy32 t).length = 32) ∧
    (∀ t : List Char, 32 ≤ t.length → nulChar ∉ t → nulChar ∉ strncpy32 t) ∧
    (∀ (recs : Nat → CsvRecord) (i : Nat) (t : List Char) (j : Nat),
      (setField1 recs i t j).field1 = (recs j).field1 ∨
      (setField1 recs i t j).field1 = strncpy32 t) ∧
    (∀ (recs : Nat → CsvRecord) (i : Nat) (t : List Char) (j : Nat),
      (setField2 recs i t j).field2 = (recs j).field2 ∨
      (setField2 recs i t j).field2 = strncpy32 t) := by
  refine ⟨?_, ?_, ?_, ?_⟩
  · intro t
    simp [strncpy32, List.length_take, List.length_replicate]
    omega
  · intro t hlen hnul hmem
    rw [strncpy32, Nat.sub_eq_zero_of_le hlen] at hmem
    simp at hmem
    exact hnul (List.mem_of_mem_take hmem)
  · intro recs i t j
    by_cases h : j = i <;> simp [setField1, h]
  · intro recs i t j
    by_cases h : j = i <;> simp [setField2, h]

/-- Claim C10, witness: a 32-byte NUL-free token leaves the field
unterminated. -/
theorem strncpy32_bounded_witness :
    (32 ≤ (List.replicate 32 'a').length ∧ nulChar ∉ List.replicate 32 'a') ∧
    nulChar ∉ strncpy32 (List.replicate 32 'a') :=
  ⟨⟨by decide, by decide⟩,
   strncpy32_bounded.2.1 (List.replicate 32 'a') (by decide) (by decide)⟩

/-- Claim C5: if `sd_write_file(F, T)` succeeds (all its FatFs steps
succeed and the device accepts the full payload) and `sd_read_file` is then
run on the resulting volume with buffer capacity `C > |T|` and all its
steps succeed, then the read succeeds and the buffer contents up to the NUL
terminator equal `T`. -/
theorem write_read_roundtrip (env : FatEnv) (fn : String) (T buffer : List Char) (C : Nat)
    (hopen : env.openRes = FR_OK) (hwres : env.writeRes = FR_OK)
    (hcap : T.length ≤ env.writeCap)
    (hrres : env.readRes = FR_OK) (hcres : env.closeRes = FR_OK)
    (hC : T.length < C) (hC32 : C < 4294967296) (hbuf : buffer.length = C)
    (hnul : nulChar ∉ T) :
    (sd_write_file env fn T).1 = FR_OK ∧
    (sd_read_file { env with vol := (sd_write_file env fn T).2.1 } fn buffer C).1 = FR_OK ∧
    ((sd_read_file { env with vol := (sd_write_file env fn T).2.1 } fn buffer C).2.1.takeWhile
        (fun c => c != nulChar)) = T := by
  have htake : T.take env.writeCap = T := List.take_of_length_le hcap
  have hwrite : sd_write_file env fn T =
      (FR_OK, updateVol (updateVol env.vol fn []) fn T,
       [FsAction.fopen, FsAction.fwrite, FsAction.fclose]) := by
    simp [sd_write_file, hopen, hwres, htake]
  have hvol : ({ env with vol := (sd_write_file env fn T).2.1 } : FatEnv).vol fn = some T := by
    rw [hwrite]
    simp [updateVol]
  have hread := sd_read_file_ok { env with vol := (sd_write_file env fn T).2.1 } fn T buffer C
      hopen hrres hcres hvol
  have hreq : sd_read_req_len C = C - 1 := req_len_sub_one C (by omega) hC32
  have hTtake : T.take (sd_read_req_len C) = T := by
    rw [hreq]
    exact List.take_of_length_le (by omega)
  rw [hTtake] at hread
  obtain ⟨rest, hrepr, _⟩ := read_buffer_repr buffer T (by omega)
  refine ⟨by rw [hwrite], by rw [hread], ?_⟩
  rw [hread]
  simp only [hrepr]
  exact takeWhile_append_nul T rest hnul

/-- Claim C5, witness: writing `"hi"` then reading with capacity 8 gives
back `"hi"`. -/
theorem write_read_roundtrip_witness :
    ((⟨emptyVol, FR_OK, FR_OK, FR_OK, 100, FR_OK, FR_OK⟩ : FatEnv).openRes = FR_OK ∧
     (['h', 'i'] : List Char).length < 8 ∧ nulChar ∉ (['h', 'i'] : List Char)) ∧
    ((sd_read_file
        { (⟨emptyVol, FR_OK, FR_OK, FR_OK, 100, FR_OK, FR_OK⟩ : FatEnv) with
            vol := (sd_write_file ⟨emptyVol, FR_OK, FR_OK, FR_OK, 100, FR_OK, FR_OK⟩
                      "t.txt" ['h', 'i']).2.1 }
        "t.txt" ['x', 'x', 'x', 'x', 'x', 'x', 'x', 'x'] 8).2.1.takeWhile
      (fun c => c != nulChar)) = ['h', 'i'] :=
  ⟨⟨rfl, by decide, by decide⟩,
   (write_read_roundtrip ⟨emptyVol, FR_OK, FR_OK, FR_OK, 100, FR_OK, FR_OK⟩ "t.txt"
      ['h', 'i'] ['x', 'x', 'x', 'x', 'x', 'x', 'x', 'x'] 8
      rfl rfl (by decide) rfl rfl (by decide) (by decide) (by decide) (by decide)).2.2⟩

/-- Claim C6: a successful `sd_read_file` with buffer capacity `C`
(`1 ≤ C < 2^32`) reads at most `C - 1` bytes into the buffer, leaves the
buffer's length unchanged at `C`, makes the bytes read a prefix of the
file, writes a NUL terminator immediately after the last byte read, and —
when the file is longer than `C` bytes — reads exactly `C - 1` bytes, so
the terminator lies within the first `C` bytes of the buffer. -/
theorem sd_read_file_bounds (env : FatEnv) (fn : String) (content buffer : List Char) (C : Nat)
    (hopen : env.openRes = FR_OK) (hrres : env.readRes = FR_OK) (hcres : env.closeRes = FR_OK)
    (hvol : env.vol fn = some content)
    (h1 : 1 ≤ C) (h32 : C < 4294967296) (hbuf : buffer.length = C) :
    (sd_read_file env fn buffer C).1 = FR_OK ∧
    (sd_read_file env fn buffer C).2.2.1 ≤ C - 1 ∧
    (sd_read_file env fn buffer C).2.1.length = C ∧
    (sd_read_file env fn buffer C).2.1.take ((sd_read_file env fn buffer C).2.2.1) =
      content.take ((sd_read_file env fn buffer C).2.2.1) ∧
    ((sd_read_file env fn buffer C).2.1)[(sd_read_file env fn buffer C).2.2.1]? =
      some nulChar ∧
    (C < content.length → (sd_read_file env fn buffer C).2.2.1 = C - 1) := by
  have hreq : sd_read_req_len C = C - 1 := req_len_sub_one C h1 h32
  have hread := sd_read_file_ok env fn content buffer C hopen hrres hcres hvol
  rw [hreq] at hread
  have hbr : (content.take (C - 1)).length = min (C - 1) content.length :=
    List.length_take _ _
  have hbrle : (content.take (C - 1)).length ≤ C - 1 := by omega
  obtain ⟨rest, hrepr, hlenr⟩ := read_buffer_repr buffer (content.take (C - 1)) (by omega)
  have hcontent : content.take (content.take (C - 1)).length = content.take (C - 1) := by
    rw [List.length_take]
    rcases Nat.le_total (C - 1) content.length with hle | hle
    · rw [Nat.min_eq_left hle]
    · rw [Nat.min_eq_right hle, List.take_length, List.take_of_length_le hle]
  rw [hread]
  simp only [hrepr]
  refine ⟨trivial, hbrle, ?_, ?_, ?_, ?_⟩
  · rw [hlenr, hbuf]
  · rw [List.take_left, hcontent]
  · exact getElem?_append_cons _ rest nulChar
  · intro hlong
    omega

/-- Claim C6, witness: a 3-byte file read with capacity 2 yields exactly 1
byte and a NUL at index 1. -/
theorem sd_read_file_bounds_witness :
    ((updateVol emptyVol "f.txt" ['a', 'b', 'c']) "f.txt" = some ['a', 'b', 'c'] ∧
     (1 : Nat) ≤ 2 ∧ (['x', 'x'] : List Char).length = 2) ∧
    ((2 : Nat) < (['a', 'b', 'c'] : List Char).length →
      (sd_read_file ⟨updateVol emptyVol "f.txt" ['a', 'b', 'c'],
          FR_OK, FR_OK, FR_OK, 0, FR_OK, FR_OK⟩ "f.txt" ['x', 'x'] 2).2.2.1 = 2 - 1) :=
  ⟨⟨by decide, by decide, by decide⟩,
   (sd_read_file_bounds ⟨updateVol emptyVol "f.txt" ['a', 'b', 'c'],
       FR_OK, FR_OK, FR_OK, 0, FR_OK, FR_OK⟩ "f.txt" ['a', 'b', 'c'] ['x', 'x'] 2
       rfl rfl rfl (by decide) (by decide) (by decide) (by decide)).2.2.2.2.2⟩

end SdFunctions
